import Mathlib

/-!
Verification of the watchlist CLI tool (src/watchlist.py) against its
specification.  The Python program is shallowly embedded: JSON values become
an inductive type, the watchlist file becomes an `Option Json` state, the
network becomes an explicit `Except NetErr Json` response parameter, and each
Python function becomes a Lean function over these states.  Python `str`
values are Lean `String`s, Python string comparison (by code point) is the
relation `strR`, and `sorted(set(l))` is `sortSet l`.  Numbers are modelled
as rationals.
-/

/-- Lexicographic comparison of char lists by code point, mirroring Python
string comparison `a <= b`. -/
def strLebGo : List Char → List Char → Bool
  | [], _ => true
  | _ :: _, [] => false
  | c :: cs, d :: ds =>
    if c.toNat < d.toNat then true
    else if d.toNat < c.toNat then false
    else strLebGo cs ds

/-- Python `a <= b` on strings (code-point lexicographic order), as a Bool. -/
def strLeb (a b : String) : Bool := strLebGo a.data b.data

/-- Python string order as a relation. -/
def strR (a b : String) : Prop := strLeb a b = true

instance : DecidableRel strR := fun a b => by unfold strR; infer_instance

theorem go_cons (x y : Char) (xs ys : List Char) :
    strLebGo (x :: xs) (y :: ys) = true ↔
      x.toNat < y.toNat ∨ (x.toNat = y.toNat ∧ strLebGo xs ys = true) := by
  simp only [strLebGo]
  split_ifs with h1 h2
  · simp [h1]
  · constructor
    · intro h; simp at h
    · rintro (h | ⟨h, _⟩) <;> omega
  · have hxy : x.toNat = y.toNat := by omega
    simp [hxy]

theorem go_total (a b : List Char) : strLebGo a b = true ∨ strLebGo b a = true := by
  induction a generalizing b with
  | nil => left; rfl
  | cons c cs ih =>
    cases b with
    | nil => right; rfl
    | cons d ds =>
      rcases Nat.lt_trichotomy c.toNat d.toNat with h | h | h
      · left; rw [go_cons]; exact Or.inl h
      · rcases ih ds with hg | hg
        · left; rw [go_cons]; exact Or.inr ⟨h, hg⟩
        · right; rw [go_cons]; exact Or.inr ⟨h.symm, hg⟩
      · right; rw [go_cons]; exact Or.inl h

theorem go_trans (a b c : List Char) (h1 : strLebGo a b = true)
    (h2 : strLebGo b c = true) : strLebGo a c = true := by
  induction a generalizing b c with
  | nil => rfl
  | cons x xs ih =>
    cases b with
    | nil => simp [strLebGo] at h1
    | cons y ys =>
      cases c with
      | nil => simp [strLebGo] at h2
      | cons z zs =>
        rw [go_cons] at h1 h2 ⊢
        rcases h1 with h1 | ⟨h1e, h1g⟩
        · rcases h2 with h2 | ⟨h2e, _⟩
          · exact Or.inl (Nat.lt_trans h1 h2)
          · exact Or.inl (by omega)
        · rcases h2 with h2 | ⟨h2e, h2g⟩
          · exact Or.inl (by omega)
          · exact Or.inr ⟨by omega, ih ys zs h1g h2g⟩

theorem char_toNat_inj {a b : Char} (h : a.toNat = b.toNat) : a = b := by
  have ha := Char.ofNat_toNat a
  rw [h, Char.ofNat_toNat] at ha
  exact ha.symm

theorem go_antisymm (a b : List Char) (h1 : strLebGo a b = true)
    (h2 : strLebGo b a = true) : a = b := by
  induction a generalizing b with
  | nil =>
    cases b with
    | nil => rfl
    | cons d ds => simp [strLebGo] at h2
  | cons c cs ih =>
    cases b with
    | nil => simp [strLebGo] at h1
    | cons d ds =>
      rw [go_cons] at h1 h2
      rcases h1 with h1 | ⟨h1e, h1g⟩
      · rcases h2 with h2 | ⟨h2e, _⟩ <;> omega
      · rcases h2 with h2 | ⟨h2e, h2g⟩
        · omega
        · rw [char_toNat_inj h1e, ih ds h1g h2g]

instance : IsTotal String strR := ⟨fun a b => go_total a.data b.data⟩

instance : IsTrans String strR := ⟨fun a b c => go_trans a.data b.data c.data⟩

instance : IsAntisymm String strR :=
  ⟨fun a b h1 h2 => String.ext (go_antisymm a.data b.data h1 h2)⟩

/-- Python `sorted(set(l))` for lists of strings: unique elements in
code-point order. -/
def sortSet (l : List String) : List String := List.insertionSort strR l.dedup

theorem sortSet_sorted (l : List String) : List.Sorted strR (sortSet l) :=
  List.sorted_insertionSort strR l.dedup

theorem sortSet_perm_dedup (l : List String) : (sortSet l).Perm l.dedup :=
  List.perm_insertionSort strR l.dedup

theorem sortSet_nodup (l : List String) : (sortSet l).Nodup :=
  (sortSet_perm_dedup l).nodup_iff.mpr l.nodup_dedup

theorem mem_sortSet {x : String} {l : List String} : x ∈ sortSet l ↔ x ∈ l := by
  rw [(sortSet_perm_dedup l).mem_iff, List.mem_dedup]

theorem sortSet_eq_of_mem_iff (l₁ l₂ : List String) (h : ∀ x, x ∈ l₁ ↔ x ∈ l₂) :
    sortSet l₁ = sortSet l₂ := by
  apply List.eq_of_perm_of_sorted _ (sortSet_sorted l₁) (sortSet_sorted l₂)
  refine ((sortSet_perm_dedup l₁).trans ?_).trans (sortSet_perm_dedup l₂).symm
  exact (List.perm_ext_iff_of_nodup l₁.nodup_dedup l₂.nodup_dedup).mpr (by simp [h])

/-- Python `str.upper` on a single code point (basic-latin case mapping, the
relevant range for ticker symbols). -/
def upperNat (n : Nat) : Nat := if 97 ≤ n ∧ n ≤ 122 then n - 32 else n

def upperChar (c : Char) : Char := Char.ofNat (upperNat c.toNat)

/-- Python `s.upper()`. -/
def upper (s : String) : String := ⟨s.data.map upperChar⟩

theorem toNat_ofNat_valid (n : Nat) (h : n.isValidChar) : (Char.ofNat n).toNat = n := by
  rw [Char.ofNat, dif_pos h]
  rfl

theorem upperNat_valid {n : Nat} (h : n.isValidChar) : (upperNat n).isValidChar := by
  unfold upperNat
  split
  · exact Or.inl (by omega)
  · exact h

theorem upperChar_toNat (c : Char) : (upperChar c).toNat = upperNat c.toNat :=
  toNat_ofNat_valid _ (upperNat_valid c.valid)

theorem upperNat_idem (n : Nat) : upperNat (upperNat n) = upperNat n := by
  simp only [upperNat]
  split_ifs <;> omega

theorem upperChar_idem (c : Char) : upperChar (upperChar c) = upperChar c := by
  show Char.ofNat (upperNat ((upperChar c).toNat)) = upperChar c
  rw [upperChar_toNat, upperNat_idem]
  rfl

theorem upper_idem (s : String) : upper (upper s) = upper s := by
  simp only [upper, List.map_map]
  congr 1
  exact List.map_congr_left fun c _ => upperChar_idem c

/-- JSON values, the data exchanged with both the watchlist file and the
quote service.  Numbers are modelled as rationals (Python distinguishes int
and float; integers are the case relevant to the claims). -/
inductive Json where
  | null
  | bool (b : Bool)
  | num (q : ℚ)
  | str (s : String)
  | arr (items : List Json)
  | obj (fields : List (String × Json))

/-- Python `v is None` on a JSON-decoded value. -/
def Json.isNull : Json → Bool
  | .null => true
  | _ => false

/-- Python truthiness of a JSON-decoded value. -/
def truthy : Json → Bool
  | .null => false
  | .bool b => b
  | .num q => q != 0
  | .str s => s != ""
  | .arr items => !items.isEmpty
  | .obj fields => !fields.isEmpty

/-- Python `d.get(k)`: the stored value, or `None` when absent.  A stored
JSON `null` decodes to Python `None` as well, so both cases yield `.null`. -/
def dictGet (fields : List (String × Json)) (k : String) : Json :=
  match fields.lookup k with
  | some v => v
  | none => .null

/-- Python `d.get(k, default)`. -/
def dictGetD (fields : List (String × Json)) (k : String) (d : Json) : Json :=
  match fields.lookup k with
  | some v => v
  | none => d

/-- Python `repr` of a JSON-decoded value (non-integer rationals and string
escaping are approximated; no claim depends on those corners). -/
def pyRepr : Json → String
  | .null => "None"
  | .bool b => if b then "True" else "False"
  | .num q => if q.den = 1 then toString q.num else toString q
  | .str s => "\x27" ++ s ++ "\x27"
  | .arr items =>
    "[" ++ String.intercalate ", " (items.attach.map fun x => pyRepr x.1) ++ "]"
  | .obj fields =>
    "\x7b" ++ String.intercalate ", "
      (fields.attach.map fun x => "\x27" ++ x.1.1 ++ "\x27: " ++ pyRepr x.1.2) ++ "\x7d"
termination_by j => sizeOf j
decreasing_by
  · have h := List.sizeOf_lt_of_mem x.2
    simp only [Json.arr.sizeOf_spec]
    omega
  · have h := List.sizeOf_lt_of_mem x.2
    have h2 : sizeOf x.1.2 < sizeOf x.1 := by
      obtain ⟨⟨a, b⟩, hx⟩ := x
      simp
    simp only [Json.obj.sizeOf_spec]
    omega

/-- Python `str` of a JSON-decoded value. -/
def pyStr : Json → String
  | .str s => s
  | j => pyRepr j

/-- The watchlist file: `none` when absent, otherwise the parsed JSON
content. -/
abbrev FileState := Option Json

/-- Network-level failures during the HTTP request; all of them surface as
`urllib.error.URLError` (of which `HTTPError` is a subclass). -/
inductive NetErr where
  | connectionRefused
  | dnsFailure
  | httpStatus (code : Nat)
  | timeout
deriving DecidableEq

/-- Exceptions the embedded functions can raise: `formatError` is the
`ValueError` from `load_watchlist`, `fetchError` the `RuntimeError` raised in
`fetch_quotes` wrapping the network cause, `typeError` any dynamic-typing
error (e.g. `.upper()` on a non-string, `float()` on a non-number). -/
inductive PyErr where
  | formatError
  | fetchError (cause : NetErr)
  | typeError
deriving DecidableEq

/-- `load_watchlist`: absent file means empty list; content that is not a
JSON array raises `ValueError`; each item is passed through `str` and
uppercased. -/
def load_watchlist (file : FileState) : Except PyErr (List String) :=
  match file with
  | none => .ok []
  | some (.arr items) => .ok (items.map fun item => upper (pyStr item))
  | some _ => .error .formatError

/-- `save_watchlist`: writes `sorted(set(tickers))` as a JSON array,
overwriting the file. -/
def save_watchlist (tickers : List String) : FileState :=
  some (.arr ((sortSet tickers).map Json.str))

/-- A parsed quote; `currency` holds the raw `entry.get("currency")` value
(`.null` models Python `None`). -/
structure Quote where
  symbol : String
  price : ℚ
  currency : Json

/-- An outgoing HTTP GET request, recorded at the query-parameter level
(the percent-encoding applied by `urlencode` is a transport detail). -/
structure Request where
  url : String
  params : List (String × String)
  headers : List (String × String)
deriving DecidableEq

def YAHOO_QUOTE_URL : String := "https://query1.finance.yahoo.com/v7/finance/quote"

/-- The network requests `fetch_quotes` issues: none for an empty ticker
list, otherwise exactly the one GET with the comma-joined symbols parameter
and the fixed User-Agent header. -/
def fetch_requests (tickers : List String) : List Request :=
  if tickers.isEmpty then []
  else [⟨YAHOO_QUOTE_URL, [("symbols", String.intercalate "," tickers)],
    [("User-Agent", "CLItool/1.0")]⟩]

/-- Python `float(v)` on a JSON-decoded value (string conversion is modelled
for unsigned integer literals; no claim depends on other strings). -/
def pyFloat : Json → Except PyErr ℚ
  | .num q => .ok q
  | .bool b => .ok (if b then 1 else 0)
  | .str s =>
    match s.toNat? with
    | some n => .ok n
    | none => .error .typeError
  | _ => .error .typeError

/-- Python dict assignment `m[k] = v`: replaces in place when the key exists,
otherwise appends (insertion order preserved). -/
def dictInsert (m : List (String × Quote)) (k : String) (v : Quote) :
    List (String × Quote) :=
  if m.any fun p => p.1 == k then
    m.map fun p => if p.1 == k then (k, v) else p
  else m ++ [(k, v)]

/-- One iteration of the result loop in `fetch_quotes`: record a quote when
the symbol is truthy and the price is not `None`, otherwise skip. -/
def parse_entry (quotes : List (String × Quote)) (entry : Json) :
    Except PyErr (List (String × Quote)) :=
  match entry with
  | .obj fields =>
    let symbol := dictGet fields "symbol"
    let price := dictGet fields "regularMarketPrice"
    if truthy symbol && !price.isNull then
      match symbol with
      | .str s =>
        match pyFloat price with
        | .ok p => .ok (dictInsert quotes (upper s) ⟨upper s, p, dictGet fields "currency"⟩)
        | .error e => .error e
      | _ => .error .typeError
    else .ok quotes
  | _ => .error .typeError

/-- `fetch_quotes`, with the single network interaction made explicit as the
`net` parameter (the response to the one request, or the transport failure). -/
def fetch_quotes (tickers : List String) (net : Except NetErr Json) :
    Except PyErr (List (String × Quote)) :=
  if tickers.isEmpty then .ok []
  else
    match net with
    | .error e => .error (.fetchError e)
    | .ok payload =>
      match payload with
      | .obj pf =>
        match dictGetD pf "quoteResponse" (.obj []) with
        | .obj qf =>
          match dictGetD qf "result" (.arr []) with
          | .arr entries => entries.foldlM parse_entry []
          | _ => .error .typeError
        | _ => .error .typeError
      | _ => .error .typeError

/-- The `add` command on the watchlist file: load, uppercase the arguments,
save the concatenation; reports the number of arguments added. -/
def add_tickers (file : FileState) (args : List String) :
    Except PyErr (FileState × Nat) :=
  match load_watchlist file with
  | .error e => .error e
  | .ok existing =>
    let additions := args.map upper
    .ok (save_watchlist (existing ++ additions), additions.length)

/-- The `remove` command on the watchlist file: load, drop the tickers whose
uppercase form is among the uppercased arguments, save; reports
`len(existing) - len(updated)`. -/
def remove_tickers (file : FileState) (args : List String) :
    Except PyErr (FileState × Nat) :=
  match load_watchlist file with
  | .error e => .error e
  | .ok existing =>
    let toRemove := args.map upper
    let updated := existing.filter fun t => !(toRemove.contains t)
    .ok (save_watchlist updated, existing.length - updated.length)

/-- The `list` command: the lines printed to standard output. -/
def list_watchlist (file : FileState) : Except PyErr (List String) :=
  match load_watchlist file with
  | .error e => .error e
  | .ok watchlist =>
    if watchlist.isEmpty then
      .ok ["Watchlist is empty. Add tickers with the \x27add\x27 command."]
    else
      .ok ("Watchlist:" :: watchlist.map fun t => "- " ++ t)

/-- A sequence of `add` commands run against an initially absent watchlist
file, following each command's own load/save cycle. -/
def run_adds (batches : List (List String)) : Except PyErr FileState :=
  batches.foldlM (fun f args => (add_tickers f args).map Prod.fst) none

/-- A UTC wall-clock time at second precision, the value of
`datetime.utcnow()` as far as `export_csv` observes it. -/
structure Dt where
  year : Nat
  month : Nat
  day : Nat
  hour : Nat
  minute : Nat
  second : Nat

def pad2 (n : Nat) : String := if n < 10 then "0" ++ toString n else toString n

def pad4 (n : Nat) : String :=
  if n < 10 then "000" ++ toString n
  else if n < 100 then "00" ++ toString n
  else if n < 1000 then "0" ++ toString n
  else toString n

/-- Python `datetime.isoformat(timespec="seconds")`. -/
def isoSeconds (d : Dt) : String :=
  pad4 d.year ++ "-" ++ pad2 d.month ++ "-" ++ pad2 d.day ++ "T" ++
    pad2 d.hour ++ ":" ++ pad2 d.minute ++ ":" ++ pad2 d.second

def csvHeader : List Json :=
  [.str "symbol", .str "price", .str "currency", .str "timestamp"]

/-- `export_csv`: first component is the file written (`none` when nothing is
created or modified), second the lines printed.  Cells hold the values passed
to `csv.writer.writerow`. -/
def export_csv (quotes : List (String × Quote)) (path : String) (now : Dt) :
    Option (List (List Json)) × List String :=
  if quotes.isEmpty then (none, ["No quotes to export."])
  else
    let ts := isoSeconds now ++ "Z"
    (some (csvHeader ::
        quotes.map fun p =>
          [Json.str p.2.symbol, Json.num p.2.price,
            (if truthy p.2.currency then p.2.currency else Json.str ""),
            Json.str ts]),
      ["CSV exported to " ++ path])

/-- The message text of the `urllib.error.URLError` for each failure kind
(the exact wording varies with the platform; only its presence matters). -/
def netErrStr : NetErr → String
  | .connectionRefused => "<urlopen error [Errno 111] Connection refused>"
  | .dnsFailure => "<urlopen error [Errno -2] Name or service not known>"
  | .httpStatus code => "HTTP Error " ++ toString code ++ ": "
  | .timeout => "<urlopen error timed out>"

/-- Observable outcome of one CLI invocation of the `fetch` command. -/
structure RunResult where
  exitCode : Nat
  file : FileState
  stderrLines : List String
  requests : List Request
  csvOut : Option (List (List Json))

/-- The `fetch` command dispatched through `main`: uppercases the arguments,
runs `fetch_quotes`, and on a `RuntimeError` prints the message to standard
error and exits with status 1.  Any other uncaught exception also terminates
with a nonzero status (its traceback is not modelled).  The watchlist file is
never written on this path. -/
def run_fetch (args : List String) (csv : Option String) (file : FileState)
    (net : Except NetErr Json) (now : Dt) : RunResult :=
  let tickers := args.map upper
  match fetch_quotes tickers net with
  | .error (.fetchError e) =>
    ⟨1, file, ["Failed to fetch quotes: " ++ netErrStr e], fetch_requests tickers, none⟩
  | .error _ => ⟨1, file, [], fetch_requests tickers, none⟩
  | .ok quotes =>
    match csv with
    | none => ⟨0, file, [], fetch_requests tickers, none⟩
    | some path => ⟨0, file, [], fetch_requests tickers, (export_csv quotes path now).1⟩

/-- The `refresh` command dispatched through `main`: loads the watchlist,
stops with a message when it is empty, otherwise fetches quotes; a
`RuntimeError` is printed to standard error with exit status 1, and an
uncaught `ValueError` from loading also terminates with a nonzero status.
The watchlist file is never written on this path. -/
def run_refresh (csv : Option String) (file : FileState)
    (net : Except NetErr Json) (now : Dt) : RunResult :=
  match load_watchlist file with
  | .error _ => ⟨1, file, [], [], none⟩
  | .ok watchlist =>
    if watchlist.isEmpty then ⟨0, file, [], [], none⟩
    else
      match fetch_quotes watchlist net with
      | .error (.fetchError e) =>
        ⟨1, file, ["Failed to fetch quotes: " ++ netErrStr e], fetch_requests watchlist, none⟩
      | .error _ => ⟨1, file, [], fetch_requests watchlist, none⟩
      | .ok quotes =>
        match csv with
        | none => ⟨0, file, [], fetch_requests watchlist, none⟩
        | some path => ⟨0, file, [], fetch_requests watchlist, (export_csv quotes path now).1⟩

/-- Whether the content of a watchlist file is a JSON array. -/
def Json.isArr : Json → Bool
  | .arr _ => true
  | _ => false

/-- Well-formed response entry: a JSON object whose `symbol` value is a
string or null/absent, and whose `regularMarketPrice` value is a number or
null/absent (the shapes the quote service produces). -/
def entryWF : Json → Bool
  | .obj fields =>
    (match dictGet fields "symbol" with
      | .str _ => true
      | .null => true
      | _ => false)
    && (match dictGet fields "regularMarketPrice" with
      | .num _ => true
      | .null => true
      | _ => false)
  | _ => false

/-- Stated from the amended claim: one entry's contribution — a Quote keyed
by the uppercased symbol exactly when the symbol is a non-empty string and
the price a non-null number, every other entry skipped. -/
def specStep (acc : List (String × Quote)) (e : Json) : List (String × Quote) :=
  match e with
  | .obj fields =>
    match dictGet fields "symbol", dictGet fields "regularMarketPrice" with
    | .str s, .num p =>
      if s ≠ "" then dictInsert acc (upper s) ⟨upper s, p, dictGet fields "currency"⟩
      else acc
    | _, _ => acc
  | _ => acc

/-- Stated from the amended claim: the quotes recorded for a result list are
exactly those of the entries whose symbol is a non-empty string and whose
price is a non-null number, keyed by uppercased symbol, in entry order. -/
def expectedQuotes (entries : List Json) : List (String × Quote) :=
  entries.foldl specStep []

/-- The mocked response of the specification's §8.5 test property. -/
def mockPayload : Json :=
  .obj [("quoteResponse", .obj [("result", .arr
    [.obj [("symbol", .str "AAPL"), ("regularMarketPrice", .num 150),
      ("currency", .str "USD")],
     .obj [("symbol", .str "BAD")]])])]

theorem load_save (T : List String) :
    load_watchlist (save_watchlist T) = .ok ((sortSet T).map upper) := by
  simp only [load_watchlist, save_watchlist, List.map_map]
  exact congrArg Except.ok (List.map_congr_left fun x _ => rfl)

theorem upper_fixed_of_mem_map {l : List String} {x : String} (h : x ∈ l.map upper) :
    upper x = x := by
  obtain ⟨y, _, rfl⟩ := List.mem_map.mp h
  exact upper_idem y

theorem map_upper_sortSet (l : List String) :
    (sortSet (l.map upper)).map upper = sortSet (l.map upper) := by
  conv_rhs => rw [← List.map_id (sortSet (l.map upper))]
  exact List.map_congr_left fun x hx => upper_fixed_of_mem_map (mem_sortSet.mp hx)

theorem load_save_upper (l : List String) :
    load_watchlist (save_watchlist (l.map upper)) = .ok (sortSet (l.map upper)) := by
  rw [load_save, map_upper_sortSet]

theorem save_eq_of_mem_iff {l₁ l₂ : List String} (h : ∀ x, x ∈ l₁ ↔ x ∈ l₂) :
    save_watchlist l₁ = save_watchlist l₂ := by
  unfold save_watchlist
  rw [sortSet_eq_of_mem_iff l₁ l₂ h]

/-- C8: `fetch_quotes` on an empty ticker collection returns the empty
mapping and issues no network request. -/
theorem fetch_quotes_empty (net : Except NetErr Json) :
    fetch_quotes [] net = .ok [] ∧ fetch_requests [] = [] :=
  ⟨rfl, rfl⟩

/-- C7: for a non-empty ticker list (already uppercased, as every caller
ensures), `fetch_quotes` issues exactly one GET request to the fixed
endpoint, with the comma-joined uppercase ticker list as the `symbols`
parameter and the fixed client-identifier header. -/
theorem fetch_single_request (ts : List String) (h : ts ≠ [])
    (hu : ∀ t ∈ ts, upper t = t) :
    fetch_requests ts =
      [⟨YAHOO_QUOTE_URL, [("symbols", String.intercalate "," (ts.map upper))],
        [("User-Agent", "CLItool/1.0")]⟩]
  ∧ (fetch_requests ts).length = 1 := by
  have hmap : ts.map upper = ts := by
    conv_rhs => rw [← List.map_id ts]
    exact List.map_congr_left hu
  have hempty : ts.isEmpty = false := by
    cases ts with
    | nil => exact absurd rfl h
    | cons a l => rfl
  constructor
  · rw [hmap]
    simp [fetch_requests, hempty]
  · simp [fetch_requests, hempty]

theorem fetch_single_request_witness :
    (fetch_requests ["AAPL", "MSFT"] =
      [⟨YAHOO_QUOTE_URL, [("symbols", String.intercalate "," (["AAPL", "MSFT"].map upper))],
        [("User-Agent", "CLItool/1.0")]⟩]
    ∧ (fetch_requests ["AAPL", "MSFT"]).length = 1) :=
  fetch_single_request ["AAPL", "MSFT"] (by decide) (by decide)

/-- C3 (amended): an absent file loads as the empty list; a present file
fails with the FormatError (`ValueError`) if and only if its content is not
a JSON array — items of any type are accepted and coerced with `str`, so an
array of non-strings is not rejected; on an array of strings every value is
uppercased. -/
theorem load_watchlist_spec :
    load_watchlist none = .ok []
  ∧ (∀ j : Json, load_watchlist (some j) = .error .formatError ↔ j.isArr = false)
  ∧ (∀ ss : List String, load_watchlist (some (.arr (ss.map Json.str))) = .ok (ss.map upper)) := by
  refine ⟨rfl, fun j => ?_, fun ss => ?_⟩
  · cases j <;> simp [load_watchlist, Json.isArr]
  · simp only [load_watchlist, List.map_map]
    exact congrArg Except.ok (List.map_congr_left fun x _ => rfl)

/-- C3 counterexample: the content `[1]` is a JSON array but not an array of
strings; the claim demands a FormatError, yet `load_watchlist` succeeds and
returns the stringified, uppercased item. -/
theorem load_watchlist_counterexample :
    load_watchlist (some (.arr [.num 1])) = .ok ["1"] := by
  simp only [load_watchlist, List.map]
  rw [show pyStr (.num 1) = "1" by simp [pyStr, pyRepr]; rfl]
  rfl

/-- C1 (amended): for a list of already-uppercase tickers (`upper t = t`),
saving and loading yields exactly `sorted(set(upper(T)))`.  For mixed-case
input the round-trip fails, because `save_watchlist` does not uppercase
while `load_watchlist` does (see the counterexample). -/
theorem save_load_roundtrip (T : List String) (h : ∀ t ∈ T, upper t = t) :
    load_watchlist (save_watchlist T) = .ok (sortSet (T.map upper)) := by
  have hmap : T.map upper = T := by
    conv_rhs => rw [← List.map_id T]
    exact List.map_congr_left h
  have h2 : (sortSet T).map upper = sortSet T := by
    conv_rhs => rw [← List.map_id (sortSet T)]
    exact List.map_congr_left fun x hx => h x (mem_sortSet.mp hx)
  rw [load_save, hmap, h2]

theorem save_load_roundtrip_witness :
    load_watchlist (save_watchlist ["MSFT", "AAPL", "AAPL"]) =
      .ok (sortSet (["MSFT", "AAPL", "AAPL"].map upper)) :=
  save_load_roundtrip ["MSFT", "AAPL", "AAPL"] (by decide)

/-- C1 counterexample: for `T = ["a", "A"]`, `save` writes
`sorted(set(["a", "A"])) = ["A", "a"]` without uppercasing, and `load`
uppercases on read, yielding `["A", "A"]` — a list with a duplicate — while
`sorted(set(upper(T)))` is `["A"]`. -/
theorem save_load_roundtrip_counterexample :
    load_watchlist (save_watchlist ["a", "A"]) = .ok ["A", "A"]
  ∧ sortSet (["a", "A"].map upper) = ["A"]
  ∧ (["A", "A"] : List String) ≠ ["A"] := by
  refine ⟨rfl, rfl, by simp⟩

theorem add_tickers_save (acc args : List String) :
    add_tickers (save_watchlist (acc.map upper)) args =
      .ok (save_watchlist ((acc ++ args).map upper), args.length) := by
  have hs : save_watchlist (sortSet (acc.map upper) ++ args.map upper) =
      save_watchlist ((acc ++ args).map upper) :=
    save_eq_of_mem_iff fun x => by simp [List.mem_append, mem_sortSet]
  unfold add_tickers
  rw [load_save_upper]
  simp [hs]

theorem run_adds_go (batches : List (List String)) (acc : List String) :
    batches.foldlM (fun f args => (add_tickers f args).map Prod.fst)
        (save_watchlist (acc.map upper)) =
      .ok (save_watchlist ((acc ++ batches.flatten).map upper)) := by
  induction batches generalizing acc with
  | nil => simp only [List.foldlM_nil, List.flatten_nil, List.append_nil]; rfl
  | cons b rest ih =>
    have step : ((add_tickers (save_watchlist (acc.map upper)) b).map Prod.fst) =
        .ok (save_watchlist ((acc ++ b).map upper)) := by
      rw [add_tickers_save]
      rfl
    rw [List.foldlM_cons, step]
    show rest.foldlM _ (save_watchlist ((acc ++ b).map upper)) = _
    rw [ih (acc ++ b), List.flatten_cons, List.append_assoc]

/-- C4: any sequence of `add` commands starting from an absent watchlist
file persists, after the last save, exactly the sorted, de-duplicated list
of all added tickers uppercased — independent of input case and of
duplicates within or across the batches. -/
theorem adds_accumulate (batches : List (List String)) (h : batches ≠ []) :
    run_adds batches =
      .ok (some (.arr ((sortSet (batches.flatten.map upper)).map Json.str))) := by
  cases batches with
  | nil => exact absurd rfl h
  | cons b rest =>
    have step : ((add_tickers none b).map Prod.fst) = .ok (save_watchlist (b.map upper)) := by
      unfold add_tickers load_watchlist
      rfl
    unfold run_adds
    rw [List.foldlM_cons, step]
    show rest.foldlM _ (save_watchlist (b.map upper)) = _
    rw [run_adds_go rest b, List.flatten_cons]
    rfl

theorem adds_accumulate_witness :
    run_adds [["aapl"], ["MSFT", "aapl"]] =
      .ok (some (.arr ((sortSet ([["aapl"], ["MSFT", "aapl"]].flatten.map upper)).map Json.str))) :=
  adds_accumulate [["aapl"], ["MSFT", "aapl"]] (by simp)

theorem string_append_left_cancel {a b c : String} (h : a ++ b = a ++ c) : b = c := by
  have hd := congrArg String.data h
  rw [String.data_append, String.data_append] at hd
  exact String.ext (List.append_cancel_left hd)

theorem dash_prepend_ne_title (s : String) : ("- " ++ s) ≠ "Watchlist:" := by
  intro h
  have hd := congrArg String.data h
  rw [String.data_append] at hd
  simp at hd

theorem dash_prepend_ne_empty_msg (s : String) :
    ("- " ++ s) ≠ "Watchlist is empty. Add tickers with the \x27add\x27 command." := by
  intro h
  have hd := congrArg String.data h
  rw [String.data_append] at hd
  simp at hd

theorem list_watchlist_ok {file : FileState} {w : List String}
    (h : load_watchlist file = .ok w) :
    list_watchlist file = .ok (if w.isEmpty then
      ["Watchlist is empty. Add tickers with the \x27add\x27 command."]
    else "Watchlist:" :: w.map fun t => "- " ++ t) := by
  unfold list_watchlist
  rw [h]
  by_cases he : w.isEmpty <;> simp [he]

/-- C5: removing from any watchlist the program itself persisted (a saved
list of uppercased tickers): the result is the existing tickers minus those
matching case-insensitively (existing entries are uppercase, and the
arguments are uppercased before the exact comparison), it is saved; the
reported count equals the cardinality of the actual set difference (0 when
nothing matched); and a subsequent `list` never shows a removed ticker. -/
theorem remove_spec (T args : List String) :
    ∃ updated c,
      remove_tickers (save_watchlist (T.map upper)) args = .ok (save_watchlist updated, c)
      ∧ updated = (sortSet (T.map upper)).filter (fun t => !((args.map upper).contains t))
      ∧ c = ((sortSet (T.map upper)).toFinset \ updated.toFinset).card
      ∧ load_watchlist (save_watchlist updated) = .ok updated
      ∧ ∀ r ∈ args, ∀ lines, list_watchlist (save_watchlist updated) = .ok lines →
          ("- " ++ upper r) ∉ lines := by
  classical
  have hnd : (sortSet (T.map upper)).Nodup := sortSet_nodup _
  set E := sortSet (T.map upper) with hEdef
  set p : String → Bool := fun t => !((args.map upper).contains t) with hpdef
  have hndf : (E.filter p).Nodup := hnd.filter p
  have hsorted : List.Sorted strR (E.filter p) :=
    List.Pairwise.filter p (sortSet_sorted (T.map upper))
  have hfix : ∀ x ∈ E.filter p, upper x = x := fun x hx =>
    upper_fixed_of_mem_map (mem_sortSet.mp (List.mem_filter.mp hx).1)
  have hss : sortSet (E.filter p) = E.filter p := by
    unfold sortSet
    rw [List.dedup_eq_self.mpr hndf]
    exact List.Sorted.insertionSort_eq hsorted
  have hload : load_watchlist (save_watchlist (E.filter p)) = .ok (E.filter p) := by
    rw [load_save, hss]
    refine congrArg Except.ok ?_
    conv_rhs => rw [← List.map_id (E.filter p)]
    exact List.map_congr_left hfix
  refine ⟨E.filter p, E.length - (E.filter p).length, ?_, rfl, ?_, hload, ?_⟩
  · unfold remove_tickers
    rw [load_save_upper]
  · have hsub : (E.filter p).toFinset ⊆ E.toFinset := by
      intro x hx
      rw [List.mem_toFinset] at hx ⊢
      exact (List.mem_filter.mp hx).1
    rw [Finset.card_sdiff hsub, List.toFinset_card_of_nodup hnd,
      List.toFinset_card_of_nodup hndf]
  · intro r hr lines hlines
    rw [list_watchlist_ok hload] at hlines
    have hl := Except.ok.inj hlines
    rw [← hl]
    by_cases hemp : (E.filter p).isEmpty
    · rw [if_pos hemp]
      simp only [List.mem_singleton]
      exact dash_prepend_ne_empty_msg (upper r)
    · rw [if_neg hemp]
      intro hmem
      rcases List.mem_cons.mp hmem with hhd | htl
      · exact dash_prepend_ne_title (upper r) hhd
      · obtain ⟨x, hx, hxeq⟩ := List.mem_map.mp htl
        have hxr : x = upper r := string_append_left_cancel hxeq
        subst hxr
        have hpx := (List.mem_filter.mp hx).2
        rw [hpdef] at hpx
        simp at hpx
        exact hpx r hr rfl

theorem remove_spec_witness :
    ∃ updated c,
      remove_tickers (save_watchlist (["AAPL", "MSFT"].map upper)) ["aapl"] =
        .ok (save_watchlist updated, c)
      ∧ updated = (sortSet (["AAPL", "MSFT"].map upper)).filter
          (fun t => !((["aapl"].map upper).contains t))
      ∧ c = ((sortSet (["AAPL", "MSFT"].map upper)).toFinset \ updated.toFinset).card
      ∧ load_watchlist (save_watchlist updated) = .ok updated
      ∧ ∀ r ∈ ["aapl"], ∀ lines, list_watchlist (save_watchlist updated) = .ok lines →
          ("- " ++ upper r) ∉ lines :=
  remove_spec ["AAPL", "MSFT"] ["aapl"]

/-- C10: every successful `remove` rewrites the watchlist file wholesale
with a sorted, duplicate-free array, whatever the previous content and even
when no ticker matched; concretely, removing the unmatched ticker "ZZZ" from
the unsorted file `["B", "A"]` reports 0 removed yet changes the on-disk
content to `["A", "B"]`. -/
theorem remove_always_rewrites (file : FileState) (args : List String) :
    (∀ nf c, remove_tickers file args = .ok (nf, c) →
      ∃ items : List String, nf = some (.arr (items.map Json.str))
        ∧ items.Sorted strR ∧ items.Nodup)
  ∧ remove_tickers (some (.arr [.str "B", .str "A"])) ["ZZZ"] =
      .ok (some (.arr [.str "A", .str "B"]), 0)
  ∧ (some (Json.arr [Json.str "A", Json.str "B"]) : FileState) ≠
      some (.arr [.str "B", .str "A"]) := by
  refine ⟨?_, ?_, ?_⟩
  · intro nf c h
    unfold remove_tickers at h
    cases hl : load_watchlist file with
    | error e =>
      rw [hl] at h
      cases h
    | ok existing =>
      rw [hl] at h
      have heq := Except.ok.inj h
      have h1 : save_watchlist (existing.filter fun t => !((args.map upper).contains t)) = nf :=
        congrArg Prod.fst heq
      refine ⟨sortSet (existing.filter fun t => !((args.map upper).contains t)),
        ?_, sortSet_sorted _, sortSet_nodup _⟩
      rw [← h1]
      rfl
  · rfl
  · simp

theorem remove_always_rewrites_witness :
    ∃ items : List String,
      (some (Json.arr [Json.str "A", Json.str "B"]) : FileState) =
        some (.arr (items.map Json.str)) ∧ items.Sorted strR ∧ items.Nodup :=
  (remove_always_rewrites (some (.arr [.str "B", .str "A"])) ["ZZZ"]).1 _ _
    (remove_always_rewrites (some (.arr [.str "B", .str "A"])) ["ZZZ"]).2.1

theorem isEmpty_false_of_ne_nil {α : Type} {l : List α} (h : l ≠ []) :
    l.isEmpty = false := by
  cases l with
  | nil => exact absurd rfl h
  | cons a t => rfl

/-- C2: when the single network interaction fails (connection refused, DNS
failure, non-2xx status, timeout), `fetch_quotes` raises exactly one
FetchError (`RuntimeError`) wrapping the underlying cause; only one request
is ever attempted (no retry); and both the `fetch` and the `refresh` command
terminate with exit status 1, printing the message to the error stream,
leaving the watchlist file exactly as it was. -/
theorem fetch_failure_behavior (args : List String) (h : args ≠ []) (csv : Option String)
    (file : FileState) (cause : NetErr) (now : Dt) (T : List String) (hT : T ≠ []) :
    fetch_quotes (args.map upper) (.error cause) = .error (.fetchError cause)
  ∧ (fetch_requests (args.map upper)).length = 1
  ∧ run_fetch args csv file (.error cause) now =
      ⟨1, file, ["Failed to fetch quotes: " ++ netErrStr cause],
        fetch_requests (args.map upper), none⟩
  ∧ run_refresh csv (save_watchlist (T.map upper)) (.error cause) now =
      ⟨1, save_watchlist (T.map upper),
        ["Failed to fetch quotes: " ++ netErrStr cause],
        fetch_requests (sortSet (T.map upper)), none⟩ := by
  have hne : (args.map upper).isEmpty = false :=
    isEmpty_false_of_ne_nil fun hnil => h (List.map_eq_nil_iff.mp hnil)
  have hfq : fetch_quotes (args.map upper) (.error cause) = .error (.fetchError cause) := by
    unfold fetch_quotes
    rw [hne]
    rfl
  have hEne : sortSet (T.map upper) ≠ [] := by
    cases T with
    | nil => exact absurd rfl hT
    | cons t ts =>
      intro hnil
      have hm : upper t ∈ sortSet ((t :: ts).map upper) := mem_sortSet.mpr (by simp)
      rw [hnil] at hm
      exact List.not_mem_nil _ hm
  have hEfq : fetch_quotes (sortSet (T.map upper)) (.error cause) =
      .error (.fetchError cause) := by
    unfold fetch_quotes
    rw [isEmpty_false_of_ne_nil hEne]
    rfl
  refine ⟨hfq, by simp [fetch_requests, hne], ?_, ?_⟩
  · unfold run_fetch
    simp only [hfq]
  · unfold run_refresh
    rw [load_save_upper]
    simp only [isEmpty_false_of_ne_nil hEne, hEfq, Bool.false_eq_true, if_false]

theorem fetch_failure_behavior_witness :
    fetch_quotes (["aapl"].map upper) (.error .timeout) = .error (.fetchError .timeout)
  ∧ (fetch_requests (["aapl"].map upper)).length = 1
  ∧ run_fetch ["aapl"] none none (.error .timeout) ⟨2026, 1, 1, 0, 0, 0⟩ =
      ⟨1, none, ["Failed to fetch quotes: " ++ netErrStr .timeout],
        fetch_requests (["aapl"].map upper), none⟩
  ∧ run_refresh none (save_watchlist (["AAPL"].map upper)) (.error .timeout)
        ⟨2026, 1, 1, 0, 0, 0⟩ =
      ⟨1, save_watchlist (["AAPL"].map upper),
        ["Failed to fetch quotes: " ++ netErrStr .timeout],
        fetch_requests (sortSet (["AAPL"].map upper)), none⟩ :=
  fetch_failure_behavior ["aapl"] (by simp) none none .timeout ⟨2026, 1, 1, 0, 0, 0⟩
    ["AAPL"] (by simp)

/-- C9: exporting an empty quote mapping writes no file and prints the
informational message; a non-empty mapping is written as the header row
followed by one row per quote in the mapping's own order, every row carrying
the same second-precision UTC ISO-8601 timestamp with a trailing "Z". -/
theorem export_csv_spec (quotes : List (String × Quote)) (path : String) (now : Dt) :
    (quotes = [] → export_csv quotes path now = (none, ["No quotes to export."]))
  ∧ (quotes ≠ [] →
      export_csv quotes path now =
        (some (csvHeader :: quotes.map fun p =>
          [Json.str p.2.symbol, Json.num p.2.price,
            (if truthy p.2.currency then p.2.currency else Json.str ""),
            Json.str (isoSeconds now ++ "Z")]),
          ["CSV exported to " ++ path])
      ∧ (isoSeconds now ++ "Z").data.getLast? = some 'Z'
      ∧ ∀ row ∈ (quotes.map fun p =>
            [Json.str p.2.symbol, Json.num p.2.price,
              (if truthy p.2.currency then p.2.currency else Json.str ""),
              Json.str (isoSeconds now ++ "Z")]),
          row.getLast? = some (Json.str (isoSeconds now ++ "Z"))) := by
  constructor
  · intro h
    subst h
    rfl
  · intro h
    refine ⟨?_, ?_, ?_⟩
    · unfold export_csv
      rw [isEmpty_false_of_ne_nil h]
      rfl
    · rw [String.data_append, show ("Z" : String).data = ['Z'] from rfl]
      exact List.getLast?_concat _
    · intro row hrow
      obtain ⟨p, hp, hpe⟩ := List.mem_map.mp hrow
      rw [← hpe]
      rfl

theorem export_csv_spec_witness :
    export_csv [] "out.csv" ⟨2026, 10, 12, 3, 4, 5⟩ = (none, ["No quotes to export."])
  ∧ (isoSeconds ⟨2026, 10, 12, 3, 4, 5⟩ ++ "Z").data.getLast? = some 'Z' :=
  ⟨(export_csv_spec [] "out.csv" ⟨2026, 10, 12, 3, 4, 5⟩).1 rfl,
    ((export_csv_spec [("AAPL", ⟨"AAPL", 150, .str "USD"⟩)] "out.csv"
      ⟨2026, 10, 12, 3, 4, 5⟩).2 (by simp)).2.1⟩

theorem parse_entry_wf (acc : List (String × Quote)) (e : Json) (h : entryWF e = true) :
    parse_entry acc e = .ok (specStep acc e) := by
  cases e with
  | obj fields =>
    simp only [entryWF] at h
    rw [Bool.and_eq_true] at h
    obtain ⟨h1, h2⟩ := h
    cases hsym : dictGet fields "symbol" with
    | str s =>
      cases hpr : dictGet fields "regularMarketPrice" with
      | num p =>
        by_cases hs : s = ""
        · subst hs
          simp [parse_entry, specStep, hsym, hpr, truthy]
        · simp [parse_entry, specStep, hsym, hpr, truthy, pyFloat, Json.isNull, hs]
      | null => simp [parse_entry, specStep, hsym, hpr, truthy, Json.isNull]
      | bool b => rw [hpr] at h2; simp at h2
      | str s2 => rw [hpr] at h2; simp at h2
      | arr xs => rw [hpr] at h2; simp at h2
      | obj fs => rw [hpr] at h2; simp at h2
    | null => simp [parse_entry, specStep, hsym, truthy]
    | bool b => rw [hsym] at h1; simp at h1
    | num q => rw [hsym] at h1; simp at h1
    | arr xs => rw [hsym] at h1; simp at h1
    | obj fs => rw [hsym] at h1; simp at h1
  | null => simp [entryWF] at h
  | bool b => simp [entryWF] at h
  | num q => simp [entryWF] at h
  | str s => simp [entryWF] at h
  | arr xs => simp [entryWF] at h

theorem foldlM_parse_entry (entries : List Json) (h : ∀ e ∈ entries, entryWF e = true)
    (acc : List (String × Quote)) :
    entries.foldlM parse_entry acc = .ok (entries.foldl specStep acc) := by
  induction entries generalizing acc with
  | nil => rfl
  | cons e rest ih =>
    rw [List.foldlM_cons, parse_entry_wf acc e (h e (by simp))]
    show rest.foldlM parse_entry (specStep acc e) = _
    rw [ih (fun x hx => h x (by simp [hx])) (specStep acc e), List.foldl_cons]

/-- C6 (amended): over a well-shaped response (entries whose symbol value is
a string or null/absent and whose price value is a number or null/absent),
`fetch_quotes` records a Quote keyed by uppercased symbol for exactly the
entries whose symbol is a non-empty string and whose price is present and
non-null, silently skipping every other entry; the spec's mocked response
maps only AAPL to price 150 with currency USD.  The unamended "both keys
present" reading fails on an entry with an empty-string symbol (see the
counterexample). -/
theorem fetch_parse_spec (ts : List String) (hts : ts ≠ []) (entries : List Json)
    (h : ∀ e ∈ entries, entryWF e = true) :
    fetch_quotes ts (.ok (.obj [("quoteResponse", .obj [("result", .arr entries)])])) =
      .ok (expectedQuotes entries)
  ∧ fetch_quotes ["AAPL", "BAD"] (.ok mockPayload) =
      .ok [("AAPL", ⟨"AAPL", 150, .str "USD"⟩)] := by
  constructor
  · unfold fetch_quotes
    rw [isEmpty_false_of_ne_nil hts]
    exact foldlM_parse_entry entries h []
  · rfl

theorem fetch_parse_spec_witness :
    fetch_quotes ["AAPL", "BAD"] (.ok mockPayload) =
      .ok [("AAPL", ⟨"AAPL", 150, .str "USD"⟩)] :=
  (fetch_parse_spec ["AAPL"] (by simp) [] (by simp)).2

/-- C6 counterexample: in the entry `{"symbol": "", "regularMarketPrice":
150}` both keys are present, yet `fetch_quotes` records nothing for it (the
empty string is falsy), so "exactly those entries in which both symbol and
regularMarketPrice are present" does not hold as stated. -/
theorem fetch_parse_counterexample :
    (([("symbol", Json.str ""), ("regularMarketPrice", Json.num 150)].lookup
        "symbol").isSome) = true
  ∧ (([("symbol", Json.str ""), ("regularMarketPrice", Json.num 150)].lookup
        "regularMarketPrice").isSome) = true
  ∧ fetch_quotes ["AAPL"] (.ok (.obj [("quoteResponse", .obj [("result", .arr
      [.obj [("symbol", Json.str ""), ("regularMarketPrice", Json.num 150)]])])])) =
      .ok [] :=
  ⟨rfl, rfl, rfl⟩
